import Mathlib

/-!
Verification of the core analysis services of the smart-resume-analyzer
repository: the section segmenter, contact extraction, formatting audit
(backend/app/services/ats_parser.py), the keyword matcher and skill
categorizer (backend/app/services/keyword_matcher.py), and the scoring
engine (backend/app/services/scorer.py).

Python strings are modelled as Lean `String` (operations implemented
characterwise on `List Char` for ASCII input), Python ints as `Int`/`Nat`,
and Python float arithmetic as exact rational arithmetic over `ℚ`.
External collaborators (spaCy tokenization, sklearn TF-IDF similarity,
PDF ingestion) are inputs to the embedded functions, as the specification
defines them at the interface.
-/

/-- ASCII lowercasing of one character, as Python str.lower acts on ASCII. -/
def lowerChar (c : Char) : Char :=
  if 65 ≤ c.toNat ∧ c.toNat ≤ 90 then Char.ofNat (c.toNat + 32) else c

/-- Characterwise lowercasing, the model of Python str.lower on ASCII text. -/
def pyLower (s : String) : String := String.mk (s.toList.map lowerChar)

/-- Whitespace characters recognised by Python str.split and str.strip. -/
def pySpace (c : Char) : Bool :=
  c == ' ' || c == '\t' || c == '\n' || c == '\r' || c == '\x0b' || c == '\x0c'

/-- Does the needle occur as a contiguous run inside the hay? -/
def listIsInfix (needle : List Char) : List Char → Bool
  | [] => needle.isEmpty
  | c :: rest => needle.isPrefixOf (c :: rest) || listIsInfix needle rest

/-- Substring containment: Python `needle in hay`. -/
def containsSub (hay needle : String) : Bool :=
  listIsInfix needle.toList hay.toList

/-- Splitting on whitespace runs, dropping empty words (Python str.split()). -/
def pyWordsAux : List Char → List Char → List (List Char)
  | [], [] => []
  | [], acc => [acc.reverse]
  | c :: cs, acc =>
    if pySpace c then
      if acc.isEmpty then pyWordsAux cs [] else acc.reverse :: pyWordsAux cs []
    else pyWordsAux cs (c :: acc)

/-- The whitespace-delimited words of a string (Python str.split()). -/
def pyWords (s : String) : List String := (pyWordsAux s.toList []).map String.mk

/-- Word count of a text: len(text.split()). -/
def wordCount (s : String) : Nat := (pyWords s).length

/-- Removal of leading and trailing whitespace (Python str.strip()). -/
def pyStrip (s : String) : String :=
  String.mk (((s.toList.dropWhile pySpace).reverse.dropWhile pySpace).reverse)

/-- Splitting on newline characters (Python text.split with one-char separator). -/
def splitLinesAux : List Char → List (List Char)
  | [] => [[]]
  | c :: cs =>
    let r := splitLinesAux cs
    if c = '\n' then [] :: r
    else
      match r with
      | h :: t => (c :: h) :: t
      | [] => [[c]]

/-- The lines of a text: Python text.split with a newline separator. -/
def pySplitLines (s : String) : List String := (splitLinesAux s.toList).map String.mk

/-- Joining lines with newline separators (Python str.join with a newline). -/
def joinLines : List String → String
  | [] => ""
  | [l] => l
  | l :: ls => l ++ "\n" ++ joinLines ls

/-! ## Section segmenter (ATSParser.parse_sections) -/

/-- The fixed section header patterns of ATSParser, in dictionary order.
Each regular expression in the source is an alternation of literal words,
so a re.search hit is exactly substring containment of one alternative. -/
def sectionPatterns : List (String × List String) :=
  [("contact", ["email", "phone", "mobile", "address", "linkedin", "github"]),
   ("summary", ["summary", "objective", "profile", "about"]),
   ("experience", ["experience", "employment", "work history", "professional experience"]),
   ("education", ["education", "academic", "qualifications", "degrees"]),
   ("skills", ["skills", "technical skills", "competencies", "expertise"]),
   ("projects", ["projects", "portfolio"]),
   ("certifications", ["certifications", "licenses", "credentials"]),
   ("achievements", ["achievements", "awards", "honors", "accomplishments"])]

/-- Classify a line as a section header: the first pattern whose alternative
occurs in the lowercased stripped line, provided the line has at most five
whitespace-delimited tokens. -/
def findSection (line : String) : Option String :=
  if (pyWords line).length ≤ 5 then
    (sectionPatterns.find? fun pr =>
      pr.2.any fun w => containsSub (pyStrip (pyLower line)) w).map (·.1)
  else none

/-- Insert-or-overwrite on an association list, keeping the original position
of an existing key: the model of Python dict assignment. -/
def upsert : List (String × String) → String → String → List (String × String)
  | [], k, v => [(k, v)]
  | (k', v') :: rest, k, v =>
    if k' = k then (k, v) :: rest else (k', v') :: upsert rest k v

/-- The loop of ATSParser.parse_sections: walk the lines, buffering content
and flushing the buffer into the map under the previous current label
whenever a header line is met, and once more at end of input. -/
def parseSectionsAux : List String → String → List String → List (String × String) →
    List (String × String)
  | [], cur, content, acc =>
    if content.isEmpty then acc else upsert acc cur (pyStrip (joinLines content))
  | line :: rest, cur, content, acc =>
    match findSection line with
    | some sec =>
      parseSectionsAux rest sec []
        (if content.isEmpty then acc else upsert acc cur (pyStrip (joinLines content)))
    | none => parseSectionsAux rest cur (content ++ [line]) acc

/-- ATSParser.parse_sections: the section map of a resume text. -/
def parse_sections (text : String) : List (String × String) :=
  parseSectionsAux (pySplitLines text) "header" [] []

/-- The raw flush sequence of the segmenter loop: the same traversal as
parseSectionsAux, but recording every flushed (label, buffered-lines) pair
in order instead of writing into the map. -/
def segFlushes : List String → String → List String → List (String × List String)
  | [], cur, content => if content.isEmpty then [] else [(cur, content)]
  | line :: rest, cur, content =>
    match findSection line with
    | some sec =>
      (if content.isEmpty then [] else [(cur, content)]) ++ segFlushes rest sec []
    | none => segFlushes rest cur (content ++ [line])

/-- The non-header lines of a text, in original order. -/
def nonHeaderLines (text : String) : List String :=
  (pySplitLines text).filter fun l => (findSection l).isNone

/-- The lines contained in the blocks of the returned section map. -/
def sectionBlockLines (text : String) : List String :=
  ((parse_sections text).map fun kv => pySplitLines kv.2).flatten

lemma segFlushes_flatten (lines : List String) :
    ∀ cur content,
      ((segFlushes lines cur content).map (·.2)).flatten =
        content ++ lines.filter (fun l => (findSection l).isNone) := by
  induction lines with
  | nil =>
    intro cur content
    cases content <;> simp [segFlushes]
  | cons line rest ih =>
    intro cur content
    cases h : findSection line with
    | some sec =>
      have hnh : (findSection line).isNone = false := by simp [h]
      cases content <;>
        simp [segFlushes, h, ih, hnh, List.filter_cons]
    | none =>
      have hnh : (findSection line).isNone = true := by simp [h]
      simp [segFlushes, h, ih, hnh, List.filter_cons]

lemma parseSectionsAux_eq_foldl (lines : List String) :
    ∀ cur content acc,
      parseSectionsAux lines cur content acc =
        (segFlushes lines cur content).foldl
          (fun m kv => upsert m kv.1 (pyStrip (joinLines kv.2))) acc := by
  induction lines with
  | nil =>
    intro cur content acc
    by_cases hc : content.isEmpty <;> simp [parseSectionsAux, segFlushes, hc]
  | cons line rest ih =>
    intro cur content acc
    cases h : findSection line with
    | some sec =>
      by_cases hc : content.isEmpty <;>
        simp [parseSectionsAux, segFlushes, h, hc, ih, List.foldl_append]
    | none =>
      simp [parseSectionsAux, segFlushes, h, ih]

/-- C2: the claim as stated fails: when a section label recurs, the dict
assignment in parse_sections overwrites the earlier block, so a non-header
input line ("b" here) belongs to no block of the returned section map. -/
theorem c2_counterexample :
    "b" ∈ nonHeaderLines "a\nskills\nb\nskills\nc" ∧
    "b" ∉ sectionBlockLines "a\nskills\nb\nskills\nc" := by
  decide

/-- C2 (amended): for every input text the segmenter loop's flushed blocks
are pairwise disjoint and their concatenation, in original line order,
is exactly the non-header lines of the input, each line in exactly one
flushed block; the returned section map is then obtained from the flushes
by stripping each joined block and last-wins insertion on repeated labels
(which can discard earlier blocks). -/
theorem c2_segmenter_flush_partition (text : String) :
    ((segFlushes (pySplitLines text) "header" []).map (·.2)).flatten = nonHeaderLines text ∧
    parse_sections text =
      (segFlushes (pySplitLines text) "header" []).foldl
        (fun m kv => upsert m kv.1 (pyStrip (joinLines kv.2))) [] := by
  constructor
  · simpa [nonHeaderLines] using segFlushes_flatten (pySplitLines text) "header" []
  · simpa [parse_sections] using parseSectionsAux_eq_foldl (pySplitLines text) "header" [] []

/-! ## Job taxonomy and keyword matcher (keyword_matcher.py) -/

/-- One job field profile of the job-role taxonomy (app/data/job_roles.json). -/
structure JobProfile where
  name : String
  core_skills : List String
  tools : List String
  frameworks : List String
  keywords : List String
deriving DecidableEq

/-- The empty profile, the Python default dict for an unknown job field. -/
def emptyJobProfile : JobProfile := ⟨"", [], [], [], []⟩

/-- self.job_roles.get(job_field, {}) on the taxonomy, modelled as an
association list read in order (dict keys are unique). -/
def jobGet (roles : List (String × JobProfile)) (field : String) : JobProfile :=
  ((roles.find? fun pr => pr.1 == field).map (·.2)).getD emptyJobProfile

/-- KeywordMatcher.get_job_keywords: the concatenation of the profile's four
keyword lists, each keyword lowercased. -/
def get_job_keywords (roles : List (String × JobProfile)) (field : String) : List String :=
  let jd := jobGet roles field
  (jd.core_skills ++ jd.tools ++ jd.frameworks ++ jd.keywords).map pyLower

/-- Rounding to two decimal places, the model of Python round(x, 2). -/
def round2 (q : ℚ) : ℚ := (round (q * 100) : ℤ) / 100

/-- The result record of KeywordMatcher.calculate_keyword_match. -/
structure KeywordMatchResult where
  match_percentage : ℚ
  matched_keywords : List String
  missing_keywords : List String
  total_required : Nat
  total_matched : Nat
deriving DecidableEq

/-- KeywordMatcher.calculate_keyword_match: case-insensitive substring test
of every taxonomy keyword against the resume text. -/
def calculate_keyword_match (resume_text : String) (roles : List (String × JobProfile))
    (job_field : String) : KeywordMatchResult :=
  let job_keywords := get_job_keywords roles job_field
  let textL := pyLower resume_text
  let matched := job_keywords.filter fun k => containsSub textL (pyLower k)
  let missing := job_keywords.filter fun k => ! containsSub textL (pyLower k)
  let mp : ℚ :=
    if job_keywords.isEmpty then 0
    else (matched.length : ℚ) / (job_keywords.length : ℚ) * 100
  ⟨round2 mp, matched, missing.take 10, job_keywords.length, matched.length⟩

/-- The four buckets of KeywordMatcher.categorize_skills. -/
structure CategorizedSkills where
  core_skills : List String
  tools : List String
  frameworks : List String
  other : List String
deriving DecidableEq

/-- Case-insensitive membership of a skill in the profile's core list
(Python: skill.lower() in core_skills_lower). -/
def inCoreB (jd : JobProfile) (s : String) : Bool :=
  decide (pyLower s ∈ jd.core_skills.map pyLower)

/-- Case-insensitive membership of a skill in the profile's tools list. -/
def inToolsB (jd : JobProfile) (s : String) : Bool :=
  decide (pyLower s ∈ jd.tools.map pyLower)

/-- Case-insensitive membership of a skill in the profile's frameworks list. -/
def inFwB (jd : JobProfile) (s : String) : Bool :=
  decide (pyLower s ∈ jd.frameworks.map pyLower)

/-- The loop of KeywordMatcher.categorize_skills over the extracted skills,
given the already-looked-up job profile. -/
def categorizeWith (jd : JobProfile) : List String → CategorizedSkills
  | [] => ⟨[], [], [], []⟩
  | s :: rest =>
    let c := categorizeWith jd rest
    if inCoreB jd s then { c with core_skills := s :: c.core_skills }
    else if inToolsB jd s then { c with tools := s :: c.tools }
    else if inFwB jd s then { c with frameworks := s :: c.frameworks }
    else { c with other := s :: c.other }

/-- KeywordMatcher.categorize_skills: bucket the extracted skills by
case-insensitive membership in the job profile's lists. -/
def categorize_skills (extracted_skills : List String) (roles : List (String × JobProfile))
    (job_field : String) : CategorizedSkills :=
  categorizeWith (jobGet roles job_field) extracted_skills

/-- A one-field taxonomy whose single keyword is stored with a capital letter. -/
def rolesPython : List (String × JobProfile) := [("f", ⟨"F", ["Python"], [], [], []⟩)]

/-- C4: the claim as stated fails: the taxonomy stores the keyword "Python",
the resume matches it, yet matched_keywords holds the case-normalized form
"python" because get_job_keywords lowercases every keyword before matching. -/
theorem c4_counterexample :
    (calculate_keyword_match "I know Python" rolesPython "f").total_matched = 1 ∧
    (calculate_keyword_match "I know Python" rolesPython "f").matched_keywords = ["python"] ∧
    "Python" ∉ (calculate_keyword_match "I know Python" rolesPython "f").matched_keywords := by
  decide

/-- C4 (amended): for every resume text and job field, matched_keywords
contains each matched keyword in lowercased (case-normalized) form: its
members are exactly the lowercasings of taxonomy keywords whose lowercased
form occurs in the lowercased resume text. -/
theorem c4_matched_keywords_lowercased (text : String) (roles : List (String × JobProfile))
    (field : String) (k : String) :
    k ∈ (calculate_keyword_match text roles field).matched_keywords ↔
      ∃ k0, k0 ∈ (jobGet roles field).core_skills ++ (jobGet roles field).tools ++
            (jobGet roles field).frameworks ++ (jobGet roles field).keywords ∧
        k = pyLower k0 ∧ containsSub (pyLower text) (pyLower k) = true := by
  constructor
  · intro hk
    rcases List.mem_filter.mp hk with ⟨hmem, hsub⟩
    rcases List.mem_map.mp hmem with ⟨k0, hk0, hlow⟩
    exact ⟨k0, hk0, hlow.symm, hsub⟩
  · rintro ⟨k0, hk0, rfl, hsub⟩
    exact List.mem_filter.mpr ⟨List.mem_map.mpr ⟨k0, hk0, rfl⟩, hsub⟩

lemma categorizeWith_all_other (jd : JobProfile) (hc : jd.core_skills = [])
    (ht : jd.tools = []) (hf : jd.frameworks = []) :
    ∀ skills, categorizeWith jd skills = ⟨[], [], [], skills⟩ := by
  intro skills
  induction skills with
  | nil => rfl
  | cons s rest ih => simp [categorizeWith, inCoreB, inToolsB, inFwB, hc, ht, hf, ih]

/-- C5: an unknown job_field_id (or a known one whose profile has zero
keywords) yields total_required = 0 and match_percentage = 0, and every
extracted skill is categorized into the other bucket. -/
theorem c5_unknown_or_empty_profile (roles : List (String × JobProfile)) (field : String)
    (text : String) (skills : List String)
    (h : roles.find? (fun pr => pr.1 == field) = none ∨ get_job_keywords roles field = []) :
    (calculate_keyword_match text roles field).total_required = 0 ∧
    (calculate_keyword_match text roles field).match_percentage = 0 ∧
    categorize_skills skills roles field = ⟨[], [], [], skills⟩ := by
  have hk : get_job_keywords roles field = [] := by
    rcases h with h | h
    · simp [get_job_keywords, jobGet, h, emptyJobProfile]
    · exact h
  have h4 : (jobGet roles field).core_skills = [] ∧ (jobGet roles field).tools = [] ∧
      (jobGet roles field).frameworks = [] := by
    have hk' := hk
    simp only [get_job_keywords, List.map_eq_nil_iff, List.append_eq_nil] at hk'
    exact ⟨hk'.1.1.1, hk'.1.1.2, hk'.1.2⟩
  refine ⟨?_, ?_, ?_⟩
  · simp [calculate_keyword_match, hk]
  · simp [calculate_keyword_match, hk, round2]
  · exact categorizeWith_all_other _ h4.1 h4.2.1 h4.2.2 skills

/-- Witness for C5 at a concrete unknown job field. -/
theorem c5_witness :
    (calculate_keyword_match "text" [] "x").total_required = 0 ∧
    (calculate_keyword_match "text" [] "x").match_percentage = 0 ∧
    categorize_skills ["A", "b"] [] "x" = ⟨[], [], [], ["A", "b"]⟩ :=
  c5_unknown_or_empty_profile [] "x" "text" ["A", "b"] (Or.inl rfl)

lemma categorizeWith_perm (jd : JobProfile) (skills : List String) :
    ((categorizeWith jd skills).core_skills ++ (categorizeWith jd skills).tools ++
      (categorizeWith jd skills).frameworks ++ (categorizeWith jd skills).other).Perm
      skills := by
  induction skills with
  | nil => simp [categorizeWith]
  | cons s rest ih =>
    have ihc := List.perm_iff_count.mp ih
    refine List.perm_iff_count.mpr fun a => ?_
    have hc := ihc a
    simp only [categorizeWith]
    split_ifs <;> by_cases ha : a = s <;>
      simp [List.count_append, List.count_cons, ha] at hc ⊢ <;> omega

lemma categorizeWith_eq_filters (jd : JobProfile) (skills : List String) :
    categorizeWith jd skills =
      ⟨skills.filter fun s => inCoreB jd s,
       skills.filter fun s => !inCoreB jd s && inToolsB jd s,
       skills.filter fun s => !inCoreB jd s && (!inToolsB jd s && inFwB jd s),
       skills.filter fun s => !inCoreB jd s && (!inToolsB jd s && !inFwB jd s)⟩ := by
  induction skills with
  | nil => rfl
  | cons s rest ih =>
    cases h1 : inCoreB jd s <;> cases h2 : inToolsB jd s <;> cases h3 : inFwB jd s <;>
      simp [categorizeWith, ih, List.filter_cons, h1, h2, h3]

/-- C6: the four CategorizedSkills buckets partition the input skill list
(original casing, multiplicity preserved, nothing dropped or duplicated),
with bucket assignment by case-insensitive taxonomy membership in the
precedence order core, then tools, then frameworks, then other, and the
buckets pairwise disjoint. -/
theorem c6_categorize_partition (roles : List (String × JobProfile)) (field : String)
    (skills : List String) :
    (((categorize_skills skills roles field).core_skills ++
      (categorize_skills skills roles field).tools ++
      (categorize_skills skills roles field).frameworks ++
      (categorize_skills skills roles field).other).Perm skills) ∧
    (∀ s, s ∈ (categorize_skills skills roles field).core_skills ↔
        s ∈ skills ∧ pyLower s ∈ (jobGet roles field).core_skills.map pyLower) ∧
    (∀ s, s ∈ (categorize_skills skills roles field).tools ↔
        s ∈ skills ∧ pyLower s ∉ (jobGet roles field).core_skills.map pyLower ∧
          pyLower s ∈ (jobGet roles field).tools.map pyLower) ∧
    (∀ s, s ∈ (categorize_skills skills roles field).frameworks ↔
        s ∈ skills ∧ pyLower s ∉ (jobGet roles field).core_skills.map pyLower ∧
          pyLower s ∉ (jobGet roles field).tools.map pyLower ∧
          pyLower s ∈ (jobGet roles field).frameworks.map pyLower) ∧
    (∀ s, s ∈ (categorize_skills skills roles field).other ↔
        s ∈ skills ∧ pyLower s ∉ (jobGet roles field).core_skills.map pyLower ∧
          pyLower s ∉ (jobGet roles field).tools.map pyLower ∧
          pyLower s ∉ (jobGet roles field).frameworks.map pyLower) ∧
    (∀ s, s ∈ (categorize_skills skills roles field).core_skills →
        s ∉ (categorize_skills skills roles field).tools ∧
        s ∉ (categorize_skills skills roles field).frameworks ∧
        s ∉ (categorize_skills skills roles field).other) ∧
    (∀ s, s ∈ (categorize_skills skills roles field).tools →
        s ∉ (categorize_skills skills roles field).frameworks ∧
        s ∉ (categorize_skills skills roles field).other) ∧
    (∀ s, s ∈ (categorize_skills skills roles field).frameworks →
        s ∉ (categorize_skills skills roles field).other) := by
  have hf := categorizeWith_eq_filters (jobGet roles field) skills
  have hco : ∀ s, s ∈ (categorize_skills skills roles field).core_skills ↔
      s ∈ skills ∧ pyLower s ∈ (jobGet roles field).core_skills.map pyLower := by
    intro s
    rw [categorize_skills, hf]
    simp [List.mem_filter, inCoreB]
  have hto : ∀ s, s ∈ (categorize_skills skills roles field).tools ↔
      s ∈ skills ∧ pyLower s ∉ (jobGet roles field).core_skills.map pyLower ∧
        pyLower s ∈ (jobGet roles field).tools.map pyLower := by
    intro s
    rw [categorize_skills, hf]
    simp [List.mem_filter, inCoreB, inToolsB, and_assoc]
  have hfw : ∀ s, s ∈ (categorize_skills skills roles field).frameworks ↔
      s ∈ skills ∧ pyLower s ∉ (jobGet roles field).core_skills.map pyLower ∧
        pyLower s ∉ (jobGet roles field).tools.map pyLower ∧
        pyLower s ∈ (jobGet roles field).frameworks.map pyLower := by
    intro s
    rw [categorize_skills, hf]
    simp [List.mem_filter, inCoreB, inToolsB, inFwB, and_assoc]
  have hot : ∀ s, s ∈ (categorize_skills skills roles field).other ↔
      s ∈ skills ∧ pyLower s ∉ (jobGet roles field).core_skills.map pyLower ∧
        pyLower s ∉ (jobGet roles field).tools.map pyLower ∧
        pyLower s ∉ (jobGet roles field).frameworks.map pyLower := by
    intro s
    rw [categorize_skills, hf]
    simp [List.mem_filter, inCoreB, inToolsB, inFwB, and_assoc]
  refine ⟨categorizeWith_perm _ skills, hco, hto, hfw, hot, ?_, ?_, ?_⟩
  · intro s hs
    have h1 := (hco s).mp hs
    exact ⟨fun h => ((hto s).mp h).2.1 h1.2, fun h => ((hfw s).mp h).2.1 h1.2,
      fun h => ((hot s).mp h).2.1 h1.2⟩
  · intro s hs
    have h1 := (hto s).mp hs
    exact ⟨fun h => ((hfw s).mp h).2.2.1 h1.2.2, fun h => ((hot s).mp h).2.2.1 h1.2.2⟩
  · intro s hs
    have h1 := (hfw s).mp hs
    exact fun h => ((hot s).mp h).2.2.2 h1.2.2.2

/-- Witness for C6 at a concrete skill list and taxonomy. -/
theorem c6_witness :
    (((categorize_skills ["Python", "Git"] rolesPython "f").core_skills ++
      (categorize_skills ["Python", "Git"] rolesPython "f").tools ++
      (categorize_skills ["Python", "Git"] rolesPython "f").frameworks ++
      (categorize_skills ["Python", "Git"] rolesPython "f").other).Perm
      ["Python", "Git"]) ∧
    "Python" ∉ (categorize_skills ["Python", "Git"] rolesPython "f").other :=
  ⟨(c6_categorize_partition rolesPython "f" ["Python", "Git"]).1,
   ((c6_categorize_partition rolesPython "f" ["Python", "Git"]).2.2.2.2.2.1 "Python"
      (by decide)).2.2⟩

/-! ## Contact extraction (ATSParser.extract_contact_info)

The four patterns are compiled pattern-by-pattern into a small backtracking
matcher over character lists with exactly the Python regex priority:
leftmost position first, greedy quantifiers, longest candidate first. -/

/-- A word character of the regex escape for w (ASCII input). -/
def isWordChar (c : Char) : Bool :=
  (c ≥ 'a' && c ≤ 'z') || (c ≥ 'A' && c ≤ 'Z') || (c ≥ '0' && c ≤ '9') || c == '_'

/-- A word character or a dash, the class of the linkedin/github patterns. -/
def isWordDash (c : Char) : Bool := isWordChar c || c == '-'

/-- A decimal digit (regex escape for d, ASCII input). -/
def isDigitChar (c : Char) : Bool := c ≥ '0' && c ≤ '9'

/-- One item of a compiled pattern: a greedy counted character class with
lower bound and optional upper bound, or a word-boundary assertion. -/
inductive RItem where
  | cls : (Char → Bool) → Nat → Option Nat → RItem
  | bnd : RItem

/-- Wordness of an optional character, text edges counting as non-word. -/
def isWordO : Option Char → Bool
  | some c => isWordChar c
  | none => false

/-- The greedy candidate splits of a counted class at the current position,
longest first, as a backtracking regex engine tries them. -/
def clsCands (p : Char → Bool) (lo : Nat) (hi : Option Nat) (cs : List Char) :
    List (List Char × List Char) :=
  let pre := (cs.takeWhile p).length
  let m := match hi with | some h => min pre h | none => pre
  if m < lo then []
  else (List.range (m + 1 - lo)).map fun i => (cs.take (m - i), cs.drop (m - i))

/-- The first defined value of a list of options. -/
def firstSome {α : Type} : List (Option α) → Option α
  | [] => none
  | some a :: _ => some a
  | none :: rest => firstSome rest

/-- Backtracking match of an item sequence at the current position, in
Python regex priority order. The fuel only bounds recursion depth; one
unit per item plus one suffices. Returns consumed characters and rest. -/
def reM : Nat → List RItem → Option Char → List Char → Option (List Char × List Char)
  | 0, _, _, _ => none
  | _ + 1, [], _, cs => some ([], cs)
  | fu + 1, .bnd :: rest, prev, cs =>
    if isWordO prev ≠ isWordO cs.head? then reM fu rest prev cs else none
  | fu + 1, .cls p lo hi :: rest, prev, cs =>
    firstSome ((clsCands p lo hi cs).map fun tr =>
      match reM fu rest (match tr.1.getLast? with | some c => some c | none => prev) tr.2 with
      | some pr2 => some (tr.1 ++ pr2.1, pr2.2)
      | none => none)

/-- Leftmost search: try a match at every position from left to right and
return the consumed characters of the first match (re.search group(0)). -/
def reSearch (items : List RItem) : Option Char → List Char → Option (List Char)
  | prev, cs =>
    match reM (items.length + 1) items prev cs with
    | some pr => some pr.1
    | none =>
      match cs with
      | [] => none
      | c :: rest => reSearch items (some c) rest

/-- A character of the email local-part class. -/
def isLocalChar (c : Char) : Bool :=
  (c ≥ 'a' && c ≤ 'z') || (c ≥ 'A' && c ≤ 'Z') || (c ≥ '0' && c ≤ '9') ||
    c == '.' || c == '_' || c == '%' || c == '+' || c == '-'

/-- A character of the email domain class. -/
def isDomainChar (c : Char) : Bool :=
  (c ≥ 'a' && c ≤ 'z') || (c ≥ 'A' && c ≤ 'Z') || (c ≥ '0' && c ≤ '9') ||
    c == '.' || c == '-'

/-- A character of the email trailing class, a letter range union including
the literal bar that the source writes inside the class. -/
def isTldChar (c : Char) : Bool :=
  (c ≥ 'a' && c ≤ 'z') || (c ≥ 'A' && c ≤ 'Z') || c == '|'

/-- The email pattern of extract_contact_info, item by item. -/
def emailItems : List RItem :=
  [.bnd, .cls isLocalChar 1 none, .cls (fun c => c == '@') 1 (some 1),
   .cls isDomainChar 1 none, .cls (fun c => c == '.') 1 (some 1),
   .cls isTldChar 2 none, .bnd]

/-- The first email match of the text (re.findall first element; the email
pattern has no group, so findall yields whole matches). -/
def emailFirst (text : String) : Option String :=
  (reSearch emailItems none text.toList).map String.mk

/-- A separator of the phone pattern class: dash, dot or whitespace. -/
def isSepChar (c : Char) : Bool := c == '-' || c == '.' || pySpace c

/-- The mandatory tail of the phone pattern after its optional group:
optional opening parenthesis, three digits, optional closing parenthesis,
optional separator, three digits, optional separator, four digits. -/
def phoneTail : List RItem :=
  [.cls (fun c => c == '(') 0 (some 1), .cls isDigitChar 3 (some 3),
   .cls (fun c => c == ')') 0 (some 1), .cls isSepChar 0 (some 1),
   .cls isDigitChar 3 (some 3), .cls isSepChar 0 (some 1),
   .cls isDigitChar 4 (some 4)]

/-- The candidate consumptions of the phone pattern's optional capturing
group (optional plus, one to three digits, optional separator), in
backtracking priority order: group present before group skipped, greedy
longest first within, latest quantifier varied fastest. -/
def phoneGroupCands (cs : List Char) : List (List Char × List Char) :=
  let plusCands : List (List Char × List Char) :=
    match cs with
    | '+' :: rest => [(['+'], rest), ([], cs)]
    | _ => [([], cs)]
  plusCands.flatMap fun pc =>
    (([3, 2, 1] : List Nat).filterMap fun d =>
      let dg := pc.2.take d
      if dg.length = d && dg.all isDigitChar then some (pc.1 ++ dg, pc.2.drop d) else none)
    |>.flatMap fun g2 =>
      match g2.2 with
      | s :: rest2 =>
        if isSepChar s then [(g2.1 ++ [s], rest2), (g2.1, g2.2)] else [(g2.1, g2.2)]
      | [] => [(g2.1, [])]

/-- Try the whole phone pattern at the current position. On success the
value is what re.findall yields for this match: the pattern has exactly one
group, so findall returns the group capture, the empty string when the
optional group does not participate. -/
def phoneMatchAt (cs : List Char) : Option String :=
  match firstSome ((phoneGroupCands cs).map fun g =>
      match reM (phoneTail.length + 1) phoneTail g.1.getLast? g.2 with
      | some _ => some (String.mk g.1)
      | none => none) with
  | some g => some g
  | none =>
    match reM (phoneTail.length + 1) phoneTail none cs with
    | some _ => some ""
    | none => none

/-- The first phone match of the text, as phones[0] of the findall call. -/
def phoneFindFirst : List Char → Option String
  | [] => phoneMatchAt []
  | c :: rest =>
    match phoneMatchAt (c :: rest) with
    | some g => some g
    | none => phoneFindFirst rest

/-- Leftmost match of a literal followed by one or more class characters,
the shape of the linkedin and github patterns. -/
def scanLitClass (lit : List Char) (p : Char → Bool) : List Char → Option (List Char)
  | [] => none
  | c :: rest =>
    if lit.isPrefixOf (c :: rest) then
      let w := ((c :: rest).drop lit.length).takeWhile p
      if w.isEmpty then scanLitClass lit p rest else some (lit ++ w)
    else scanLitClass lit p rest

/-- The contact dict of ATSParser.extract_contact_info: each field absent or
the first matched value; the phone value can be the empty string, the
non-participating group capture that findall returns. -/
structure Contact where
  email : Option String
  phone : Option String
  linkedin : Option String
  github : Option String
deriving DecidableEq

/-- Python truthiness of contact.get(key): key present, value non-empty. -/
def truthy : Option String → Bool
  | some s => !(s == "")
  | none => false

/-- ATSParser.extract_contact_info: the linkedin and github patterns are
applied to the lowercased text, the email and phone patterns to the text. -/
def extract_contact_info (text : String) : Contact :=
  { email := emailFirst text
    phone := phoneFindFirst text.toList
    linkedin := (scanLitClass "linkedin.com/in/".toList isWordDash (pyLower text).toList).map
      String.mk
    github := (scanLitClass "github.com/".toList isWordDash (pyLower text).toList).map
      String.mk }

/-- The contact_info sub-score of ResumeScorer.calculate_ats_score: 40 for
email, 30 for phone, 15 for linkedin, 15 for github, each by Python
truthiness of the extracted field. -/
def contactInfoScore (c : Contact) : ℚ :=
  (if truthy c.email then 40 else 0) + (if truthy c.phone then 30 else 0) +
    (if truthy c.linkedin then 15 else 0) + (if truthy c.github then 15 else 0)

/-- C3 (code bug): on the scenario contact line the phone pattern matches
"555-123-4567" with its only capture group not participating, so findall
returns the group capture and the code stores phone = "". The empty string
is falsy, so the phone counts as missing and the contact_info sub-score is
70, not 100: the tuple-joining branch the source wrote for groups can never
engage, since findall with one group returns plain strings. -/
theorem c3_contact_extraction_eval :
    extract_contact_info "john@x.com 555-123-4567 linkedin.com/in/john github.com/john" =
      ⟨some "john@x.com", some "", some "linkedin.com/in/john", some "github.com/john"⟩ ∧
    truthy (extract_contact_info
      "john@x.com 555-123-4567 linkedin.com/in/john github.com/john").phone = false ∧
    contactInfoScore (extract_contact_info
      "john@x.com 555-123-4567 linkedin.com/in/john github.com/john") = 70 := by
  have h : extract_contact_info
      "john@x.com 555-123-4567 linkedin.com/in/john github.com/john" =
      ⟨some "john@x.com", some "", some "linkedin.com/in/john", some "github.com/john"⟩ := by
    decide
  refine ⟨h, ?_, ?_⟩
  · rw [h]
    decide
  · rw [h]
    have he : truthy (some "john@x.com") = true := by decide
    have hp : truthy (some "") = false := by decide
    have hl : truthy (some "linkedin.com/in/john") = true := by decide
    have hg : truthy (some "github.com/john") = true := by decide
    simp only [contactInfoScore, he, hp, hl, hg, if_true, if_false]
    norm_num

/-! ## Formatting audit (ATSParser.analyze_formatting) -/

/-- The document metadata field the formatting audit consumes. -/
structure Metadata where
  has_images : Bool
deriving DecidableEq

/-- The record ATSParser.analyze_formatting returns. -/
structure FormattingAudit where
  score : Int
  issues : List String
  sections_found : List String
  word_count : Nat
deriving DecidableEq

/-- Does the parsed section map contain the given label? -/
def hasSection (text : String) (s : String) : Bool :=
  (parse_sections text).any fun kv => kv.1 == s

/-- The required sections missing from the parsed map, in required order. -/
def missingSections (text : String) : List String :=
  ["experience", "education", "skills"].filter fun s => !hasSection text s

/-- ATSParser.analyze_formatting: start at 100, apply the fixed deductions
in evaluation order while appending issue strings, clamp at 0. -/
def analyze_formatting (text : String) (metadata : Metadata) : FormattingAudit :=
  let issues0 : List String := []
  let score0 : Int := 100
  let issues1 := if metadata.has_images then
    issues0 ++ ["Contains images - may not be ATS-friendly"] else issues0
  let score1 := if metadata.has_images then score0 - 10 else score0
  let wc := wordCount text
  let issues2 := if wc < 300 then issues1 ++ ["Resume too short (< 300 words)"]
    else if wc > 1200 then issues1 ++ ["Resume too long (> 1200 words, ~2 pages)"]
    else issues1
  let score2 : Int := if wc < 300 then score1 - 15 else if wc > 1200 then score1 - 5 else score1
  let missing := missingSections text
  let issues3 := if missing.isEmpty then issues2
    else issues2 ++ ["Missing sections: " ++ ", ".intercalate missing]
  let score3 : Int := if missing.isEmpty then score2 else score2 - 10 * missing.length
  let contact := extract_contact_info text
  let issues4 := if truthy contact.email then issues3 else issues3 ++ ["No email address found"]
  let score4 := if truthy contact.email then score3 else score3 - 10
  let issues5 := if truthy contact.phone then issues4 else issues4 ++ ["No phone number found"]
  let score5 := if truthy contact.phone then score4 else score4 - 5
  ⟨max 0 score5, issues5, (parse_sections text).map (·.1), wc⟩

/-- The total deduction the audit applies before clamping. -/
def deductionTotal (text : String) (metadata : Metadata) : Int :=
  (if metadata.has_images then 10 else 0) +
    (if wordCount text < 300 then 15 else if wordCount text > 1200 then 5 else 0) +
    10 * (missingSections text).length +
    (if truthy (extract_contact_info text).email then 0 else 10) +
    (if truthy (extract_contact_info text).phone then 0 else 5)

/-- The issue strings of the audit, in evaluation order. -/
def auditIssues (text : String) (metadata : Metadata) : List String :=
  (if metadata.has_images then ["Contains images - may not be ATS-friendly"] else []) ++
  (if wordCount text < 300 then ["Resume too short (< 300 words)"]
   else if wordCount text > 1200 then ["Resume too long (> 1200 words, ~2 pages)"] else []) ++
  (if (missingSections text).isEmpty then []
   else ["Missing sections: " ++ ", ".intercalate (missingSections text)]) ++
  (if truthy (extract_contact_info text).email then [] else ["No email address found"]) ++
  (if truthy (extract_contact_info text).phone then [] else ["No phone number found"])

lemma analyze_formatting_decomp (text : String) (metadata : Metadata) :
    analyze_formatting text metadata =
      ⟨max 0 (100 - deductionTotal text metadata), auditIssues text metadata,
       (parse_sections text).map (·.1), wordCount text⟩ := by
  simp only [analyze_formatting, deductionTotal, auditIssues, FormattingAudit.mk.injEq,
    List.isEmpty_iff_length_eq_zero, and_true]
  refine ⟨?_, ?_⟩
  · split_ifs <;> (congr 1; omega)
  · split_ifs <;> simp

/-- C8: the audit starts at 100 and applies exactly the fixed deductions
(10 images, 15 short, 5 long - mutually exclusive with short, 10 per
missing required section, 10 missing email, 5 missing phone), appending the
issue strings in that same evaluation order; the returned score is the
clamp max 0 (100 - total deduction), hence never below 0, and it is
non-increasing as the deduction total grows with added issues. -/
theorem c8_formatting_deductions (text : String) (metadata : Metadata) :
    (analyze_formatting text metadata).score = max 0 (100 - deductionTotal text metadata) ∧
    (analyze_formatting text metadata).issues = auditIssues text metadata ∧
    0 ≤ (analyze_formatting text metadata).score ∧
    (∀ text2 metadata2, deductionTotal text metadata ≤ deductionTotal text2 metadata2 →
      (analyze_formatting text2 metadata2).score ≤ (analyze_formatting text metadata).score) := by
  have h1 := analyze_formatting_decomp text metadata
  refine ⟨by rw [h1], by rw [h1], by rw [h1]; exact le_max_left _ _, ?_⟩
  intro text2 metadata2 hd
  rw [h1, analyze_formatting_decomp text2 metadata2]
  simp only
  omega

/-- Witness for C8 at concrete inputs. -/
theorem c8_witness :
    (analyze_formatting "" ⟨false⟩).score = max 0 (100 - deductionTotal "" ⟨false⟩) ∧
    (analyze_formatting "x" ⟨true⟩).score ≤ (analyze_formatting "" ⟨false⟩).score :=
  ⟨(c8_formatting_deductions "" ⟨false⟩).1,
   (c8_formatting_deductions "" ⟨false⟩).2.2.2 "x" ⟨true⟩ (by decide)⟩

/-- C10: at most 70 points can ever be deducted (the short and long
deductions are mutually exclusive and at most three required sections can
be missing), so the audit score is always at least 30 and the max(0, score)
clamp never changes the value. -/
theorem c10_formatting_score_at_least_30 (text : String) (metadata : Metadata) :
    30 ≤ (analyze_formatting text metadata).score ∧
    (analyze_formatting text metadata).score = 100 - deductionTotal text metadata := by
  have hlen : (missingSections text).length ≤ 3 := by
    simpa [missingSections] using
      List.length_filter_le (fun s => !hasSection text s) ["experience", "education", "skills"]
  have hd : deductionTotal text metadata ≤ 70 ∧ 0 ≤ deductionTotal text metadata := by
    unfold deductionTotal
    split_ifs <;> omega
  have h1 := analyze_formatting_decomp text metadata
  rw [h1]
  simp only
  omega

/-! ## Experience and education extraction (ATSParser) -/

/-- Try the year-range date pattern at the current position: four digits,
optional whitespace, a hyphen or an en dash, optional whitespace, then four
digits or the literal present or current (that alternation order). Returns
the matched characters, the group(0) of the search. -/
def tryDateAt (cs : List Char) : Option (List Char) :=
  let d1 := cs.take 4
  if d1.length = 4 && d1.all isDigitChar then
    let cs1 := cs.drop 4
    let ws1 := cs1.takeWhile pySpace
    let cs2 := cs1.drop ws1.length
    match cs2 with
    | sep :: cs3 =>
      if sep == '-' || sep == '–' then
        let ws2 := cs3.takeWhile pySpace
        let cs4 := cs3.drop ws2.length
        let d2 := cs4.take 4
        if d2.length = 4 && d2.all isDigitChar then
          some (d1 ++ ws1 ++ [sep] ++ ws2 ++ d2)
        else if "present".toList.isPrefixOf cs4 then
          some (d1 ++ ws1 ++ [sep] ++ ws2 ++ "present".toList)
        else if "current".toList.isPrefixOf cs4 then
          some (d1 ++ ws1 ++ [sep] ++ ws2 ++ "current".toList)
        else none
      else none
    | [] => none
  else none

/-- Leftmost search for the date pattern (re.search, group(0)). -/
def dateSearch : List Char → Option (List Char)
  | [] => tryDateAt []
  | c :: rest =>
    match tryDateAt (c :: rest) with
    | some m => some m
    | none => dateSearch rest

/-- A work experience entry; a date line sets both fields and later
non-blank lines extend the description. -/
structure ExpEntry where
  duration : String
  description : String
deriving DecidableEq

/-- The loop of ATSParser.extract_experience: a blank stripped line closes
the open entry; a line with a date match overwrites the open entry's
duration and resets its description; any other line extends an open entry
and is skipped when no entry is open. -/
def extractExperienceAux : List String → Option ExpEntry → List ExpEntry
  | [], none => []
  | [], some e => [e]
  | line :: rest, cur =>
    let l := pyStrip line
    if l == "" then
      match cur with
      | some e => e :: extractExperienceAux rest none
      | none => extractExperienceAux rest none
    else
      match dateSearch (pyLower l).toList with
      | some m => extractExperienceAux rest (some ⟨String.mk m, l⟩)
      | none =>
        match cur with
        | some e => extractExperienceAux rest (some ⟨e.duration, e.description ++ " " ++ l⟩)
        | none => extractExperienceAux rest none

/-- ATSParser.extract_experience. -/
def extract_experience (text : String) : List ExpEntry :=
  extractExperienceAux (pySplitLines text) none

/-- The degree and level needles of extract_education: the two degree
pattern regexes are alternations of literals with optional dots, so a
search hit on a lowercased line is exactly containment of one of these
needles (a trailing optional dot never affects whether a match exists). -/
def degreeNeedles : List String :=
  ["bachelor", "master", "phd", "doctorate", "associate",
   "bs", "b.s", "ms", "m.s", "ba", "b.a", "ma", "m.a",
   "undergraduate", "graduate", "postgraduate"]

/-- An education entry: the stripped matching line and a fixed sentinel. -/
structure EduEntry where
  degree : String
  level : String
deriving DecidableEq

/-- Does a line match one of the degree patterns (case-insensitive)? -/
def eduLineMatches (line : String) : Bool :=
  degreeNeedles.any fun w => containsSub (pyLower line) w

/-- ATSParser.extract_education: one entry per matching line, in order. -/
def extract_education (text : String) : List EduEntry :=
  ((pySplitLines text).filter fun line => eduLineMatches line).map
    fun line => ⟨pyStrip line, "detected"⟩

/-! ## Scoring engine (scorer.py) -/

/-- The parsed record the scoring engine reads. Skill extraction is the
external spaCy collaborator; the scorer never reads the skill list, only
the categorized-skills record of the keyword analysis. -/
structure ParsedData where
  sections : List (String × String)
  contact : Contact
  experience : List ExpEntry
  education : List EduEntry
  formatting : FormattingAudit
deriving DecidableEq

/-- ATSParser.parse restricted to the fields the scoring engine reads. -/
def parse (text : String) (metadata : Metadata) : ParsedData :=
  ⟨parse_sections text, extract_contact_info text, extract_experience text,
   extract_education text, analyze_formatting text metadata⟩

/-- The keyword analysis record the scorer consumes: the exact-match result,
the similarity score of the external TF-IDF collaborator, and the
categorized skills. -/
structure KeywordAnalysis where
  keyword_match : KeywordMatchResult
  semantic_similarity : ℚ
  categorized_skills : CategorizedSkills
deriving DecidableEq

/-- A composite score: rounded total, named sub-scores, letter grade. -/
structure CompositeScore where
  total : ℚ
  breakdown : List (String × ℚ)
  grade : String
deriving DecidableEq

/-- ResumeScorer._get_grade. -/
def get_grade (score : ℚ) : String :=
  if score ≥ 85 then "A"
  else if score ≥ 70 then "B"
  else if score ≥ 50 then "C"
  else if score ≥ 30 then "D"
  else "F"

/-- ResumeScorer.calculate_ats_score, with the weights of WEIGHTS.ats. -/
def calculate_ats_score (pd : ParsedData) (ka : KeywordAnalysis) : CompositeScore :=
  let formatting_score : ℚ := (pd.formatting.score : ℚ)
  let found := pd.sections.map (·.1)
  let sections_score : ℚ :=
    ((["experience", "education", "skills", "contact"].filter fun s => found.contains s).length
      : ℚ) / 4 * 100
  let wc := pd.formatting.word_count
  let readability_score : ℚ :=
    if 300 ≤ wc ∧ wc ≤ 800 then 100
    else if 800 < wc ∧ wc ≤ 1200 then 90
    else if 200 ≤ wc ∧ wc < 300 then 70
    else 50
  let contact_score := contactInfoScore pd.contact
  let length_score : ℚ :=
    if 300 ≤ wc ∧ wc ≤ 1000 then 100
    else max 50 (100 - |(wc : ℚ) - 650| / 10)
  let keyword_score : ℚ := min 100 (ka.keyword_match.match_percentage * 1.5)
  let total := formatting_score * 0.2 + sections_score * 0.2 + readability_score * 0.2 +
    contact_score * 0.15 + length_score * 0.15 + keyword_score * 0.1
  ⟨round2 total,
   [("formatting", formatting_score), ("sections", sections_score),
    ("readability", readability_score), ("contact_info", contact_score),
    ("length", length_score), ("keywords", keyword_score)],
   get_grade total⟩

/-- ResumeScorer.calculate_job_fit_score, with the weights of WEIGHTS.job_fit. -/
def calculate_job_fit_score (pd : ParsedData) (ka : KeywordAnalysis) : CompositeScore :=
  let keyword_match_score := ka.keyword_match.match_percentage
  let semantic_score := ka.semantic_similarity
  let experience_score : ℚ :=
    if 3 ≤ pd.experience.length then 100
    else if pd.experience.length = 2 then 80
    else if pd.experience.length = 1 then 60
    else 30
  let education_score : ℚ := min 100 ((pd.education.length : ℚ) * 50)
  let skills_coverage : ℚ := min 100 ((ka.categorized_skills.core_skills.length : ℚ) * 10)
  let total := keyword_match_score * 0.4 + semantic_score * 0.2 + experience_score * 0.2 +
    education_score * 0.1 + skills_coverage * 0.1
  ⟨round2 total,
   [("keyword_match", keyword_match_score), ("semantic_similarity", semantic_score),
    ("experience_relevance", experience_score), ("education_fit", education_score),
    ("skills_coverage", skills_coverage)],
   get_grade total⟩

/-- The shortlist estimate. The return statement in the source file is
syntactically malformed at its first dict key, so the field names here
follow the ShortlistEstimate record of the specification; the probability,
combined score and color values are the ones the source computes. -/
structure ShortlistEstimate where
  probability : String
  combined_score : ℚ
  color : String
deriving DecidableEq

/-- ResumeScorer.calculate_shortlist_probability. -/
def calculate_shortlist_probability (ats_score job_fit_score : ℚ) : ShortlistEstimate :=
  let combined_score := ats_score * 0.45 + job_fit_score * 0.55
  if 80 ≤ combined_score then ⟨"Very High (85-95%)", round2 combined_score, "#10b981"⟩
  else if 65 ≤ combined_score then ⟨"High (70-85%)", round2 combined_score, "#3b82f6"⟩
  else if 50 ≤ combined_score then ⟨"Moderate (50-70%)", round2 combined_score, "#f59e0b"⟩
  else if 35 ≤ combined_score then ⟨"Low (30-50%)", round2 combined_score, "#ef4444"⟩
  else ⟨"Very Low (< 30%)", round2 combined_score, "#991b1b"⟩

/-- The order of the letter grades, F lowest, A highest. -/
def gradeRank : String → Nat
  | "A" => 4
  | "B" => 3
  | "C" => 2
  | "D" => 1
  | _ => 0

lemma round2_bounds {q : ℚ} (h0 : 0 ≤ q) (h1 : q ≤ 100) :
    0 ≤ round2 q ∧ round2 q ≤ 100 := by
  unfold round2
  rw [round_eq]
  constructor
  · have hfl : (0 : ℤ) ≤ ⌊q * 100 + 1 / 2⌋ := Int.floor_nonneg.mpr (by linarith)
    have : (0 : ℚ) ≤ (⌊q * 100 + 1 / 2⌋ : ℚ) := by exact_mod_cast hfl
    linarith
  · have hfl : ⌊q * 100 + 1 / 2⌋ ≤ ⌊(10000 + 1 / 2 : ℚ)⌋ :=
      Int.floor_le_floor (by linarith)
    have hval : ⌊(10000 + 1 / 2 : ℚ)⌋ = 10000 := by
      rw [Int.floor_eq_iff]
      norm_num
    rw [hval] at hfl
    have : (⌊q * 100 + 1 / 2⌋ : ℚ) ≤ 10000 := by exact_mod_cast hfl
    linarith

lemma match_percentage_bounds (text : String) (roles : List (String × JobProfile))
    (field : String) :
    0 ≤ (calculate_keyword_match text roles field).match_percentage ∧
      (calculate_keyword_match text roles field).match_percentage ≤ 100 := by
  simp only [calculate_keyword_match]
  by_cases h : (get_job_keywords roles field).isEmpty
  · simp only [h, if_true]
    exact round2_bounds le_rfl (by norm_num)
  · simp only [h, if_false]
    have hlen : 0 < (get_job_keywords roles field).length := by
      cases hj : get_job_keywords roles field with
      | nil => rw [hj] at h; simp at h
      | cons a l => simp
    have hm : ((get_job_keywords roles field).filter fun k =>
        containsSub (pyLower text) (pyLower k)).length ≤
        (get_job_keywords roles field).length := List.length_filter_le _ _
    have hq0 : (0 : ℚ) ≤ (((get_job_keywords roles field).filter fun k =>
        containsSub (pyLower text) (pyLower k)).length : ℚ) /
        ((get_job_keywords roles field).length : ℚ) * 100 := by positivity
    have hq1 : (((get_job_keywords roles field).filter fun k =>
        containsSub (pyLower text) (pyLower k)).length : ℚ) /
        ((get_job_keywords roles field).length : ℚ) * 100 ≤ 100 := by
      rw [div_mul_eq_mul_div, div_le_iff₀ (by exact_mod_cast hlen)]
      have hmq : (((get_job_keywords roles field).filter fun k =>
          containsSub (pyLower text) (pyLower k)).length : ℚ) ≤
          ((get_job_keywords roles field).length : ℚ) := by exact_mod_cast hm
      nlinarith
    exact round2_bounds hq0 hq1

lemma get_grade_monotone {t1 t2 : ℚ} (h : t1 ≤ t2) :
    gradeRank (get_grade t1) ≤ gradeRank (get_grade t2) := by
  unfold get_grade
  split_ifs <;> simp [gradeRank] <;> linarith

lemma weighted_ats_bounds {a b c d e f : ℚ}
    (ha : 0 ≤ a ∧ a ≤ 100) (hb : 0 ≤ b ∧ b ≤ 100) (hc : 0 ≤ c ∧ c ≤ 100)
    (hd : 0 ≤ d ∧ d ≤ 100) (he : 0 ≤ e ∧ e ≤ 100) (hf : 0 ≤ f ∧ f ≤ 100) :
    0 ≤ a * 0.2 + b * 0.2 + c * 0.2 + d * 0.15 + e * 0.15 + f * 0.1 ∧
      a * 0.2 + b * 0.2 + c * 0.2 + d * 0.15 + e * 0.15 + f * 0.1 ≤ 100 := by
  obtain ⟨ha0, ha1⟩ := ha
  obtain ⟨hb0, hb1⟩ := hb
  obtain ⟨hc0, hc1⟩ := hc
  obtain ⟨hd0, hd1⟩ := hd
  obtain ⟨he0, he1⟩ := he
  obtain ⟨hf0, hf1⟩ := hf
  constructor <;> nlinarith

lemma weighted_job_fit_bounds {a b c d e : ℚ}
    (ha : 0 ≤ a ∧ a ≤ 100) (hb : 0 ≤ b ∧ b ≤ 100) (hc : 0 ≤ c ∧ c ≤ 100)
    (hd : 0 ≤ d ∧ d ≤ 100) (he : 0 ≤ e ∧ e ≤ 100) :
    0 ≤ a * 0.4 + b * 0.2 + c * 0.2 + d * 0.1 + e * 0.1 ∧
      a * 0.4 + b * 0.2 + c * 0.2 + d * 0.1 + e * 0.1 ≤ 100 := by
  obtain ⟨ha0, ha1⟩ := ha
  obtain ⟨hb0, hb1⟩ := hb
  obtain ⟨hc0, hc1⟩ := hc
  obtain ⟨hd0, hd1⟩ := hd
  obtain ⟨he0, he1⟩ := he
  constructor <;> nlinarith

lemma ats_total_bounds (pd : ParsedData) (ka : KeywordAnalysis)
    (hf0 : 0 ≤ pd.formatting.score) (hf1 : pd.formatting.score ≤ 100)
    (hm0 : 0 ≤ ka.keyword_match.match_percentage) :
    0 ≤ (calculate_ats_score pd ka).total ∧ (calculate_ats_score pd ka).total ≤ 100 := by
  have hfq : (0 : ℚ) ≤ (pd.formatting.score : ℚ) ∧ (pd.formatting.score : ℚ) ≤ 100 := by
    constructor <;> exact_mod_cast (by assumption)
  have hsecl : ((["experience", "education", "skills", "contact"].filter fun s =>
      (pd.sections.map (·.1)).contains s).length) ≤ 4 := by
    simpa using
      List.length_filter_le (fun s => (pd.sections.map (·.1)).contains s)
        ["experience", "education", "skills", "contact"]
  have hsec : (0 : ℚ) ≤ ((["experience", "education", "skills", "contact"].filter fun s =>
      (pd.sections.map (·.1)).contains s).length : ℚ) / 4 * 100 ∧
      ((["experience", "education", "skills", "contact"].filter fun s =>
      (pd.sections.map (·.1)).contains s).length : ℚ) / 4 * 100 ≤ 100 := by
    have hc : ((["experience", "education", "skills", "contact"].filter fun s =>
        (pd.sections.map (·.1)).contains s).length : ℚ) ≤ 4 := by exact_mod_cast hsecl
    constructor
    · positivity
    · linarith
  have hread : (0 : ℚ) ≤ (if 300 ≤ pd.formatting.word_count ∧ pd.formatting.word_count ≤ 800
      then (100 : ℚ) else if 800 < pd.formatting.word_count ∧ pd.formatting.word_count ≤ 1200
      then 90 else if 200 ≤ pd.formatting.word_count ∧ pd.formatting.word_count < 300
      then 70 else 50) ∧ (if 300 ≤ pd.formatting.word_count ∧ pd.formatting.word_count ≤ 800
      then (100 : ℚ) else if 800 < pd.formatting.word_count ∧ pd.formatting.word_count ≤ 1200
      then 90 else if 200 ≤ pd.formatting.word_count ∧ pd.formatting.word_count < 300
      then 70 else 50) ≤ 100 := by
    split_ifs <;> norm_num
  have hcon : (0 : ℚ) ≤ contactInfoScore pd.contact ∧ contactInfoScore pd.contact ≤ 100 := by
    unfold contactInfoScore
    split_ifs <;> norm_num
  have hlen : (0 : ℚ) ≤ (if 300 ≤ pd.formatting.word_count ∧ pd.formatting.word_count ≤ 1000
      then (100 : ℚ) else max 50 (100 - |(pd.formatting.word_count : ℚ) - 650| / 10)) ∧
      (if 300 ≤ pd.formatting.word_count ∧ pd.formatting.word_count ≤ 1000
      then (100 : ℚ) else max 50 (100 - |(pd.formatting.word_count : ℚ) - 650| / 10)) ≤ 100 := by
    split_ifs
    · norm_num
    · constructor
      · have : (50 : ℚ) ≤ max 50 (100 - |(pd.formatting.word_count : ℚ) - 650| / 10) :=
          le_max_left _ _
        linarith
      · refine max_le (by norm_num) ?_
        have : (0 : ℚ) ≤ |(pd.formatting.word_count : ℚ) - 650| / 10 := by positivity
        linarith
  have hkw : (0 : ℚ) ≤ min 100 (ka.keyword_match.match_percentage * 1.5) ∧
      min 100 (ka.keyword_match.match_percentage * 1.5) ≤ 100 := by
    constructor
    · refine le_min (by norm_num) ?_
      nlinarith
    · exact min_le_left _ _
  have h := weighted_ats_bounds hfq hsec hread hcon hlen hkw
  simpa only [calculate_ats_score] using round2_bounds h.1 h.2

lemma job_fit_total_bounds (pd : ParsedData) (ka : KeywordAnalysis)
    (hm : 0 ≤ ka.keyword_match.match_percentage ∧ ka.keyword_match.match_percentage ≤ 100)
    (hs : 0 ≤ ka.semantic_similarity ∧ ka.semantic_similarity ≤ 100) :
    0 ≤ (calculate_job_fit_score pd ka).total ∧ (calculate_job_fit_score pd ka).total ≤ 100 := by
  have hexp : (0 : ℚ) ≤ (if 3 ≤ pd.experience.length then (100 : ℚ)
      else if pd.experience.length = 2 then 80 else if pd.experience.length = 1 then 60
      else 30) ∧ (if 3 ≤ pd.experience.length then (100 : ℚ)
      else if pd.experience.length = 2 then 80 else if pd.experience.length = 1 then 60
      else 30) ≤ 100 := by
    split_ifs <;> norm_num
  have hedu : (0 : ℚ) ≤ min 100 ((pd.education.length : ℚ) * 50) ∧
      min 100 ((pd.education.length : ℚ) * 50) ≤ 100 := by
    refine ⟨le_min (by norm_num) (by positivity), min_le_left _ _⟩
  have hcov : (0 : ℚ) ≤ min 100 ((ka.categorized_skills.core_skills.length : ℚ) * 10) ∧
      min 100 ((ka.categorized_skills.core_skills.length : ℚ) * 10) ≤ 100 := by
    refine ⟨le_min (by norm_num) (by positivity), min_le_left _ _⟩
  have h := weighted_job_fit_bounds hm hs hexp hedu hcov
  simpa only [calculate_job_fit_score] using round2_bounds h.1 h.2

lemma formatting_score_bounds (text : String) (metadata : Metadata) :
    0 ≤ (parse text metadata).formatting.score ∧
      (parse text metadata).formatting.score ≤ 100 := by
  have h1 := analyze_formatting_decomp text metadata
  have hd : 0 ≤ deductionTotal text metadata := by
    unfold deductionTotal
    split_ifs <;> omega
  show 0 ≤ (analyze_formatting text metadata).score ∧
    (analyze_formatting text metadata).score ≤ 100
  rw [h1]
  simp only
  omega

/-- C7: for every pipeline input (text, metadata, taxonomy, job field,
extracted skills, and a semantic similarity in [0,100] from the external
TF-IDF collaborator), both composite totals lie in [0,100]; and the grade
mapping is monotone: larger totals never get a lower grade in the order
F, D, C, B, A. -/
theorem c7_totals_bounded_and_grades_monotone (text : String) (metadata : Metadata)
    (roles : List (String × JobProfile)) (field : String) (skills : List String) (sim : ℚ)
    (hs0 : 0 ≤ sim) (hs1 : sim ≤ 100) :
    (0 ≤ (calculate_ats_score (parse text metadata)
        ⟨calculate_keyword_match text roles field, sim,
          categorize_skills skills roles field⟩).total ∧
      (calculate_ats_score (parse text metadata)
        ⟨calculate_keyword_match text roles field, sim,
          categorize_skills skills roles field⟩).total ≤ 100 ∧
      0 ≤ (calculate_job_fit_score (parse text metadata)
        ⟨calculate_keyword_match text roles field, sim,
          categorize_skills skills roles field⟩).total ∧
      (calculate_job_fit_score (parse text metadata)
        ⟨calculate_keyword_match text roles field, sim,
          categorize_skills skills roles field⟩).total ≤ 100) ∧
    (∀ t1 t2 : ℚ, t1 ≤ t2 → gradeRank (get_grade t1) ≤ gradeRank (get_grade t2)) := by
  have hmp := match_percentage_bounds text roles field
  have hf := formatting_score_bounds text metadata
  have hats := ats_total_bounds (parse text metadata)
    ⟨calculate_keyword_match text roles field, sim, categorize_skills skills roles field⟩
    hf.1 hf.2 hmp.1
  have hjf := job_fit_total_bounds (parse text metadata)
    ⟨calculate_keyword_match text roles field, sim, categorize_skills skills roles field⟩
    hmp ⟨hs0, hs1⟩
  exact ⟨⟨hats.1, hats.2, hjf.1, hjf.2⟩, fun t1 t2 h => get_grade_monotone h⟩

/-- Witness for C7 at concrete inputs. -/
theorem c7_witness :
    (0 ≤ (calculate_ats_score (parse "" ⟨false⟩)
        ⟨calculate_keyword_match "" [] "f", 0, categorize_skills [] [] "f"⟩).total ∧
      (calculate_ats_score (parse "" ⟨false⟩)
        ⟨calculate_keyword_match "" [] "f", 0, categorize_skills [] [] "f"⟩).total ≤ 100 ∧
      0 ≤ (calculate_job_fit_score (parse "" ⟨false⟩)
        ⟨calculate_keyword_match "" [] "f", 0, categorize_skills [] [] "f"⟩).total ∧
      (calculate_job_fit_score (parse "" ⟨false⟩)
        ⟨calculate_keyword_match "" [] "f", 0, categorize_skills [] [] "f"⟩).total ≤ 100) ∧
    gradeRank (get_grade 10) ≤ gradeRank (get_grade 90) := by
  have h := c7_totals_bounded_and_grades_monotone "" ⟨false⟩ [] "f" [] 0 le_rfl (by norm_num)
  exact ⟨h.1, h.2 10 90 (by norm_num)⟩

lemma round2_int_div (q : ℚ) (n : ℤ) (h : q * 100 = (n : ℚ)) : round2 q = (n : ℚ) / 100 := by
  unfold round2
  rw [h, round_intCast]

/-- C9: the shortlist estimate computes combined = ats_total times 0.45 plus
job_fit_total times 0.55 and buckets the unrounded combined value at the
thresholds 80, 65, 50, 35 into the five fixed labels; a combined score of
exactly 80 yields the Very High label and 79.99 yields the High label. -/
theorem c9_shortlist_buckets :
    (∀ a j : ℚ,
      (calculate_shortlist_probability a j).combined_score =
        round2 (a * 0.45 + j * 0.55) ∧
      (80 ≤ a * 0.45 + j * 0.55 →
        (calculate_shortlist_probability a j).probability = "Very High (85-95%)") ∧
      (65 ≤ a * 0.45 + j * 0.55 ∧ a * 0.45 + j * 0.55 < 80 →
        (calculate_shortlist_probability a j).probability = "High (70-85%)") ∧
      (50 ≤ a * 0.45 + j * 0.55 ∧ a * 0.45 + j * 0.55 < 65 →
        (calculate_shortlist_probability a j).probability = "Moderate (50-70%)") ∧
      (35 ≤ a * 0.45 + j * 0.55 ∧ a * 0.45 + j * 0.55 < 50 →
        (calculate_shortlist_probability a j).probability = "Low (30-50%)") ∧
      (a * 0.45 + j * 0.55 < 35 →
        (calculate_shortlist_probability a j).probability = "Very Low (< 30%)")) ∧
    (calculate_shortlist_probability 80 80).probability = "Very High (85-95%)" ∧
    (calculate_shortlist_probability 80 80).combined_score = 80 ∧
    (calculate_shortlist_probability 79.99 79.99).probability = "High (70-85%)" ∧
    (calculate_shortlist_probability 79.99 79.99).combined_score = 79.99 := by
  have hmain : ∀ a j : ℚ,
      (calculate_shortlist_probability a j).combined_score =
        round2 (a * 0.45 + j * 0.55) ∧
      (80 ≤ a * 0.45 + j * 0.55 →
        (calculate_shortlist_probability a j).probability = "Very High (85-95%)") ∧
      (65 ≤ a * 0.45 + j * 0.55 ∧ a * 0.45 + j * 0.55 < 80 →
        (calculate_shortlist_probability a j).probability = "High (70-85%)") ∧
      (50 ≤ a * 0.45 + j * 0.55 ∧ a * 0.45 + j * 0.55 < 65 →
        (calculate_shortlist_probability a j).probability = "Moderate (50-70%)") ∧
      (35 ≤ a * 0.45 + j * 0.55 ∧ a * 0.45 + j * 0.55 < 50 →
        (calculate_shortlist_probability a j).probability = "Low (30-50%)") ∧
      (a * 0.45 + j * 0.55 < 35 →
        (calculate_shortlist_probability a j).probability = "Very Low (< 30%)") := by
    intro a j
    simp only [calculate_shortlist_probability]
    split_ifs with h1 h2 h3 h4 <;>
      refine ⟨rfl, fun h => ?_, fun h => ?_, fun h => ?_, fun h => ?_, fun h => ?_⟩ <;>
      first
        | rfl
        | (exfalso; linarith)
  refine ⟨hmain, (hmain 80 80).2.1 (by norm_num), ?_, (hmain 79.99 79.99).2.2.1 (by norm_num), ?_⟩
  · rw [(hmain 80 80).1, round2_int_div _ 8000 (by norm_num)]
    norm_num
  · rw [(hmain 79.99 79.99).1, round2_int_div _ 7999 (by norm_num)]
    norm_num

/-- C1: on the empty resume with no images and a job profile of five
keywords none of which match, the pipeline yields word_count 0, a
formatting score that the clamp keeps at 0 or above, match_percentage 0,
and the grade F on both composites (semantic similarity and extracted
skills are the external collaborators' outputs on empty text: 0 and none). -/
theorem c1_empty_resume_scenario (roles : List (String × JobProfile)) (field : String)
    (h5 : (get_job_keywords roles field).length = 5)
    (hm : (calculate_keyword_match "" roles field).total_matched = 0) :
    (parse "" ⟨false⟩).formatting.word_count = 0 ∧
    0 ≤ (parse "" ⟨false⟩).formatting.score ∧
    (calculate_keyword_match "" roles field).match_percentage = 0 ∧
    (calculate_ats_score (parse "" ⟨false⟩)
      ⟨calculate_keyword_match "" roles field, 0,
        categorize_skills [] roles field⟩).grade = "F" ∧
    (calculate_job_fit_score (parse "" ⟨false⟩)
      ⟨calculate_keyword_match "" roles field, 0,
        categorize_skills [] roles field⟩).grade = "F" := by
  have hparse : parse "" ⟨false⟩ =
      ⟨[("header", "")], ⟨none, none, none, none⟩, [], [],
        ⟨40, ["Resume too short (< 300 words)",
              "Missing sections: experience, education, skills",
              "No email address found", "No phone number found"], ["header"], 0⟩⟩ := by
    decide
  have hne : (get_job_keywords roles field).isEmpty = false := by
    cases hj : get_job_keywords roles field with
    | nil => rw [hj] at h5; simp at h5
    | cons a l => rfl
  have hlen : ((get_job_keywords roles field).filter fun k =>
      containsSub (pyLower "") (pyLower k)).length = 0 := by
    simpa only [calculate_keyword_match] using hm
  have hmp : (calculate_keyword_match "" roles field).match_percentage = 0 := by
    simp only [calculate_keyword_match, hne, Bool.false_eq_true, if_false, hlen]
    norm_num [round2]
  have hfil : (["experience", "education", "skills", "contact"].filter fun s =>
      (([("header", "")] : List (String × String)).map (·.1)).contains s) = [] := by decide
  refine ⟨by rw [hparse], by rw [hparse]; norm_num, hmp, ?_, ?_⟩
  · rw [hparse]
    simp only [calculate_ats_score]
    dsimp only
    rw [hfil, hmp]
    norm_num [contactInfoScore, truthy, get_grade]
  · rw [hparse]
    simp only [calculate_job_fit_score, categorize_skills, categorizeWith]
    dsimp only
    rw [hmp]
    norm_num [get_grade]

/-- A concrete five-keyword data-scientist profile for the C1 witness. -/
def rolesDS : List (String × JobProfile) :=
  [("data_scientist",
    ⟨"Data Scientist", ["python", "sql"], ["jupyter"], ["pandas"], ["statistics"]⟩)]

/-- Witness for C1 at the concrete taxonomy. -/
theorem c1_witness :
    (calculate_keyword_match "" rolesDS "data_scientist").match_percentage = 0 ∧
    (calculate_ats_score (parse "" ⟨false⟩)
      ⟨calculate_keyword_match "" rolesDS "data_scientist", 0,
        categorize_skills [] rolesDS "data_scientist"⟩).grade = "F" ∧
    (calculate_job_fit_score (parse "" ⟨false⟩)
      ⟨calculate_keyword_match "" rolesDS "data_scientist", 0,
        categorize_skills [] rolesDS "data_scientist"⟩).grade = "F" := by
  have h := c1_empty_resume_scenario rolesDS "data_scientist" (by decide) (by decide)
  exact ⟨h.2.2.1, h.2.2.2.1, h.2.2.2.2⟩

/-- Witness for C4 at a concrete text, taxonomy and keyword. -/
theorem c4_witness :
    "python" ∈ (calculate_keyword_match "I know Python" rolesPython "f").matched_keywords :=
  (c4_matched_keywords_lowercased "I know Python" rolesPython "f" "python").mpr
    ⟨"Python", by decide, by decide, by decide⟩

/-- Witness for C9 at a concrete pair of composite totals. -/
theorem c9_witness :
    (calculate_shortlist_probability 90 90).probability = "Very High (85-95%)" :=
  (c9_shortlist_buckets.1 90 90).2.1 (by norm_num)
